import Mathlib

/-! Verification development for the OPPO `.bin` LUT to `.cube` converter
(`tools/convert_oppo_luts.py`): a shallow embedding of the format sniffer
(`parse_ms_lut_header` and the raw-dump branch of `convert_bin_to_cube`),
the payload decoder (`extract_lut_data`), the table normalizer (the
threshold / truncate / pad block of `convert_bin_to_cube`) and the genre
classifier (`categorize_lut`), with theorems about their behaviour.
Byte strings are modelled as `List Nat`, the floating-point quantities of
the source (`v / 255.0`, the `0.9` acceptance threshold) as exact
rationals, and the float cube-root rounding as exact real rounding. -/

set_option maxRecDepth 10000

namespace FilmSims

/-- One decoded LUT entry: an (R, G, B) triple.  The source divides raw
bytes by `255.0` (an IEEE double); the values are modelled as exact
rationals. -/
abbrev Entry := ℚ × ℚ × ℚ

/-- Bytewise test that the first argument is an initial segment of the
second (Python `startswith`, and the anchored-at-start regex matches). -/
def leadsList {α : Type} [DecidableEq α] : List α → List α → Bool
  | [], _ => true
  | _ :: _, [] => false
  | a :: as, b :: bs => if a = b then leadsList as bs else false

/-- Python `needle in hay`: contiguous-subsequence containment. -/
def subOf {α : Type} [DecidableEq α] (hay needle : List α) : Bool :=
  (List.range (hay.length + 1)).any (fun i => leadsList needle (hay.drop i))

/-- Python `str.lower()` (the inputs of interest are ASCII, where
`Char.toLower` agrees with Python). -/
def lowerStr (s : String) : List Char := s.toList.map Char.toLower

/-- The code points of a string literal, used for byte-level markers. -/
def strBytes (s : String) : List Nat := s.toList.map Char.toNat

/-- The 8-byte magic signature `'.MS-LUT '` (line 53). -/
def magicBytes : List Nat := strBytes ".MS-LUT "

/-- Little-endian unsigned integer read of `n` bytes at offset `off`,
modelling `struct.unpack('<I', ...)` / `struct.unpack('<Q', ...)` on an
in-range slice. -/
def readLE (data : List Nat) (off : Nat) : Nat → Nat
  | 0 => 0
  | n + 1 => data.getD off 0 + 256 * readLE data (off + 1) n

/-- Lines 67-81: when the blob is longer than 0x30 bytes, read 8-byte
little-endian candidate data offsets at 0x20 and 0x28 and keep, in this
order, those with `0 < candidate < len(data)`.  (The guarded
`struct.unpack` calls cannot fail there, since `len(data) > 0x30` makes
both slices full 8-byte slices.) -/
def candidateOffsets (data : List Nat) : List Nat :=
  if 0x30 < data.length then
    (let off1 := readLE data 0x20 8
     let off2 := readLE data 0x28 8
     (if 0 < off1 ∧ off1 < data.length then [off1] else []) ++
       (if 0 < off2 ∧ off2 < data.length then [off2] else []))
  else []

/-- Line 98: the grid sizes tried by the brute-force search, in order. -/
def bruteSizes : List Nat := [17, 32, 33, 21, 16, 25, 20, 64]

/-- The (size, channels) pairs tried by the nested loops of lines 98-110,
in iteration order. -/
def brutePairs : List (Nat × Nat) := bruteSizes.flatMap (fun s => [(s, 3), (s, 4)])

/-- Lines 96-110: first (size, channels) pair whose implied header size
`file_size - size^3*channels` satisfies `0 <= header_size < 4096`.  The
source computes the difference over ℤ; over ℕ the acceptance condition is
`size^3*channels ≤ fs ∧ fs < size^3*channels + 4096`. -/
def bruteForce (fs : Nat) : Option (Nat × Nat) :=
  brutePairs.find? (fun p => decide (p.1 ^ 3 * p.2 ≤ fs ∧ fs < p.1 ^ 3 * p.2 + 4096))

/-- Lines 112-117: the size-banding fallback grid size. -/
def fallbackSize (fs : Nat) : Nat :=
  if fs ≤ 16000 then 17 else if fs ≤ 30000 then 21 else if fs ≤ 100000 then 32 else 33

/-- Lines 86-123: resolve `(lut_size, channels, data_offset)` from the total
file size.  Every branch of this dispatch assigns all three variables, so
the candidate offset read at lines 67-81 never survives into the result.
The fallback offset `file_size - lut_size**3*3`, clamped to 0 when
negative (lines 121-123), is ℕ-truncated subtraction. -/
def resolveBySize (fs : Nat) : Nat × Nat × Nat :=
  if fs = 14855 then (17, 3, 116)
  else if fs = 98480 then (32, 3, 176)
  else
    match bruteForce fs with
    | some p => (p.1, p.2, fs - p.1 ^ 3 * p.2)
    | none => (fallbackSize fs, 3, fs - (fallbackSize fs) ^ 3 * 3)

/-- Lines 131-137: the bytes sampled for byte-order detection.  For
`r in range(min(4, lut_size))`, row `r` starts at `data_offset + r*channels`
and is sampled (byte `k` of the row) whenever `idx + 3 <= file_size`;
both `b0_vals` (`k = 0`) and `b2_vals` (`k = 2`) use this same filter. -/
def sampleVals (data : List Nat) (off ch lutN fs k : Nat) : List Nat :=
  ((List.range (min 4 lutN)).filter (fun r => decide (off + r * ch + 3 ≤ fs))).map
    (fun r => data.getD (off + r * ch + k) 0)

/-- `vals[-1] - vals[0]` over ℤ (lines 140-141, only reached on lists with
at least two elements). -/
def lastMinusHead (l : List Nat) : Int :=
  ((l.getLast?.getD 0 : Nat) : Int) - ((l.headD 0 : Nat) : Int)

/-- Lines 129-146: byte-order auto-detection.  `is_bgr` starts False; when
`data_offset + channels*4 <= file_size` the first rows are sampled and, with
at least two samples, `is_bgr = b2_diff > b0_diff`; with fewer samples the
filename fallback `is_bgr = '.rgba.' in filename.lower()` runs (`if filename:`
is false for `None` and for the empty string). -/
def detectBgr (data : List Nat) (off ch lutN : Nat) (filename : Option String) : Bool :=
  if off + ch * 4 ≤ data.length then
    (let b0 := sampleVals data off ch lutN data.length 0
     let b2 := sampleVals data off ch lutN data.length 2
     if 2 ≤ b0.length ∧ 2 ≤ b2.length then
       decide (lastMinusHead b0 < lastMinusHead b2)
     else
       match filename with
       | some f => if f.length = 0 then false else subOf (lowerStr f) (".rgba.".toList)
       | none => false)
  else false

/-- The dict returned by `parse_ms_lut_header` (lines 148-155). -/
structure MsHeader where
  version : Nat
  lut_size : Nat
  file_size : Nat
  data_offset : Nat
  channels : Nat
  bgr : Bool
deriving DecidableEq

/-- Outcome of `parse_ms_lut_header`: `noMagic` models the `return None` of
line 54 (the caller then takes the raw-dump path), `err` models an escaping
exception (the unguarded `struct.unpack` of line 57 on a blob of 8-11
bytes), which the caller's catch-all turns into a failed conversion. -/
inductive ParseResult
  | err
  | noMagic
  | ok (h : MsHeader)
deriving DecidableEq

/-- Lines 50-155, `parse_ms_lut_header`.  The candidate offset of lines
67-81 is recorded (`_cand`) but every branch of the size dispatch of lines
86-123 reassigns `data_offset`, so the returned offset comes from
`resolveBySize` alone. -/
def parse_ms_lut_header (data : List Nat) (filename : Option String) : ParseResult :=
  if leadsList magicBytes data = true then
    if data.length < 12 then .err
    else
      let version := readLE data 8 4
      let _cand := (candidateOffsets data).headD 0
      let r := resolveBySize data.length
      .ok ⟨version, r.1, data.length, r.2.2, r.2.1,
        detectBgr data r.2.2 r.2.1 r.1 filename⟩
  else .noMagic

/-- Fuel-bounded search for the least `n` with `8*fs < c*(2n+1)^3`, which
for `c > 0` is the exact real rounding `floor(cbrt(fs/c) + 1/2)`: this
models `int((file_size / c) ** (1/3) + 0.5)` (lines 324 and 330).  The
source computes it in IEEE doubles; the two agree except within float
error of half-integer cube-root boundaries, and agree at every input used
in this development. -/
def cbrtGo (fs c : Nat) : Nat → Nat → Nat
  | 0, n => n
  | fuel + 1, n => if 8 * fs < c * (2 * n + 1) ^ 3 then n else cbrtGo fs c fuel (n + 1)

/-- `int((fs / c) ** (1/3) + 0.5)`, see `cbrtGo`. -/
def pyCbrtRound (fs c : Nat) : Nat := cbrtGo fs c (fs + 1) 0

/-- Lines 309-334: grid size and channel count for a headerless raw dump.
In the cube-root branch the source first sets `channels = 4` when
`size_c4**3 * 4 == file_size` (line 327), but the stray `channels = 3` of
line 334 is indented at the outer level of the `else:` of line 321 and so
runs unconditionally after the inner if/else, resetting the channel count
to 3 in the whole cube-root branch.  This embedding reproduces that
behaviour: `sc0` is the inner if/else, and the returned channel count is
the constant 3 of line 334. -/
def rawSize (fs : Nat) : Nat × Nat :=
  if fs = 16384 then (16, 4)
  else if fs = 131072 then (32, 4)
  else if fs = 98304 then (32, 3)
  else if fs = 12288 then (16, 3)
  else
    let size_c4 := pyCbrtRound fs 4
    let sc0 := if size_c4 ^ 3 * 4 = fs then (size_c4, 4) else (pyCbrtRound fs 3, 3)
    (sc0.1, 3)

/-- The dict built for a raw dump at lines 340-345. -/
structure RawHeader where
  lut_size : Nat
  data_offset : Nat
  channels : Nat
  bgr : Bool
deriving DecidableEq

/-- Lines 302-345: the headerless raw-dump header.  `is_bgr` defaults to
True and is overridden to False only when the lowercased filename contains
`'.rgb.'` and not `'.rgba.'` (lines 336-338); `data_offset` is always 0. -/
def rawHeader (data : List Nat) (name : String) : RawHeader :=
  let sc := rawSize data.length
  let is_bgr :=
    if subOf (lowerStr name) (".rgb.".toList) && !subOf (lowerStr name) (".rgba.".toList)
    then false else true
  ⟨sc.1, 0, sc.2, is_bgr⟩

/-- Lines 176-191: one decoded record.  The three bytes at `off` are each
divided by 255 and the first and third swap places when `is_bgr`. -/
def lutEntry (lut : List Nat) (off : Nat) (bgr : Bool) : Entry :=
  let c1 : ℚ := (lut.getD off 0 : ℚ) / 255
  let c2 : ℚ := (lut.getD (off + 1) 0 : ℚ) / 255
  let c3 : ℚ := (lut.getD (off + 2) 0 : ℚ) / 255
  if bgr then (c3, c2, c1) else (c1, c2, c3)

/-- The loop of lines 171-191: iterate `i` from the given start for at most
`fuel` steps, breaking as soon as `i*channels + 3 > len(lut_data)`. -/
def extractGo (lut : List Nat) (ch : Nat) (bgr : Bool) : Nat → Nat → List Entry
  | 0, _ => []
  | fuel + 1, i =>
    if i * ch + 3 > lut.length then []
    else lutEntry lut (i * ch) bgr :: extractGo lut ch bgr fuel (i + 1)

/-- Lines 158-193, `extract_lut_data`: decode up to `lut_size^3` records of
`channels` bytes each, starting at `data_offset`. -/
def extract_lut_data (data : List Nat) (lut_size data_offset channels : Nat)
    (bgr : Bool) : List Entry :=
  extractGo (data.drop data_offset) channels bgr (lut_size ^ 3) 0

/-- Lines 366-372: the synthetic identity-ramp entry appended at target
index `idx` while padding (always emitted in RGB order; `lut_size - 1` is
the denominator). -/
def rampEntry (N idx : Nat) : Entry :=
  let b : ℚ := ((idx / (N * N) : Nat) : ℚ) / ((N : ℚ) - 1)
  let g : ℚ := ((idx / N % N : Nat) : ℚ) / ((N : ℚ) - 1)
  let r : ℚ := ((idx % N : Nat) : ℚ) / ((N : ℚ) - 1)
  (r, g, b)

/-- The `while len(entries) < expected` padding loop of lines 365-372,
fuel-bounded (any fuel at least the deficit models the unbounded loop). -/
def padLoop (N : Nat) : Nat → List Entry → List Entry
  | 0, es => es
  | fuel + 1, es =>
    if es.length < N ^ 3 then padLoop N fuel (es ++ [rampEntry N es.length]) else es

/-- Lines 355-372, the table normalizer: reject when the entry list is
empty or shorter than `lut_size**3 * 0.9` (the float threshold is modelled
exactly: `len < N^3 * 0.9` iff `10*len < 9*N^3`), else truncate to
`lut_size^3` entries or pad with the identity ramp. -/
def normalize (entries : List Entry) (lut_size : Nat) : Option (List Entry) :=
  if entries = [] ∨ 10 * entries.length < 9 * lut_size ^ 3 then none
  else if entries.length > lut_size ^ 3 then some (entries.take (lut_size ^ 3))
  else some (padLoop lut_size (lut_size ^ 3) entries)

/-- A genre-table pattern.  The source table uses regular expressions, but
the only regex features occurring in it are the `^` anchor (match at the
start of the name: `isPre`) and the escaped literal dot `\.`; every other
pattern is a plain substring search (`isSub`).  `re.IGNORECASE` is
irrelevant because the searched name is lowercased first and every pattern
is already lowercase. -/
inductive Pat
  | isPre (p : List Char)
  | isSub (p : List Char)
deriving DecidableEq

/-- `re.search(pattern, basename)` for the patterns of the table. -/
def patMatches (name : List Char) : Pat → Bool
  | .isPre p => leadsList p name
  | .isSub p => subOf name p

/-- Anchored pattern (`^...` in the source table). -/
def pP (s : String) : Pat := .isPre s.toList

/-- Plain substring pattern. -/
def pS (s : String) : Pat := .isSub s.toList

/-- Lines 14-35, `GENRE_PATTERNS`, in declaration order (Python dicts
preserve insertion order). -/
def genrePatterns : List (String × List Pat) :=
  [("Ricoh GR", [pP "gr.", pS "gr.bw", pS "gr.hi", pS "gr.nega", pS "gr.posi"]),
   ("Hasselblad Master", [pS "radiance", pS "serenity", pS "emerald"]),
   ("Fujifilm", [pS "fuji", pS "type_fuji", pS "provia", pS "velvia", pS "astia",
     pS "acros", pS "eterna", pS "chrome"]),
   ("Kodak Film", [pS "kodak", pS "800t", pS "delta400"]),
   ("Cinematic (Movie)", [pS "moneyball", pS "inception", pS "cyberpunk",
     pS "interstellar", pS "neon", pS "city"]),
   ("Instagram Filters", [pP "ins", pS "insclarendon", pS "insjuno", pS "insvalencia"]),
   ("OPPO Original", [pP "oplus", pP "oppo", pP "opc_"]),
   ("Black & White", [pS "b-w", pS "blackandwhite", pS "mono", pS "grayscale"]),
   ("Portrait", [pS "portrait", pS "pp1", pS "pp2", pS "pp3", pS "v02"]),
   ("Landscape", [pS "landscape", pS "v01", pS "mountains", pS "island", pS "lake",
     pS "beach", pS "desert", pS "forest", pS "senlin"]),
   ("Food", [pS "food", pS "v03", pS "gourmet", pS "meiwei"]),
   ("Night", [pS "night", pS "v04", pS "moonlight"]),
   ("Warm Tones", [pS "warm", pS "cola", pS "candy", pS "sweet", pS "gold"]),
   ("Cool Tones", [pS "cold", pS "cool", pS "azure", pS "blue"]),
   ("Vintage/Retro", [pS "old", pS "vintage", pS "retro", pS "drjw", pS "ccd"]),
   ("HDR/Video", [pS "hdr", pS "log_video", pS "dolby", pS "bt2020", pS "bt709", pS "p3_"]),
   ("App Filters", [pS "b612", pS "beautyplus", pS "faceapp", pS "snapseed",
     pS "sweetsnap", pS "youcam"]),
   ("Artistic", [pS "morandi", pS "texture", pS "vivid"]),
   ("Japanese Style", [pS "japan", pS "jiari", pS "bowu", pS "yuanqi", pS "qiuri", pS "lvtu"]),
   ("Golden Touch", [pS "gt-", pS "glow", pS "rosy", pS "steaming"])]

/-- The nested loops of lines 42-47: scan the table in order, returning the
first genre one of whose patterns matches. -/
def firstGenre (name : List Char) : List (String × List Pat) → String
  | [] => "Uncategorized"
  | (g, pats) :: rest => if pats.any (patMatches name) then g else firstGenre name rest

/-- Lines 38-47, `categorize_lut`. -/
def categorize_lut (filename : String) : String :=
  firstGenre (lowerStr filename) genrePatterns

/-- `bytes.decode('ascii', errors='ignore')`: code points below 128 kept,
all other bytes dropped. -/
def asciiFilter (bs : List Nat) : List Nat := bs.filter (fun b => decide (b < 128))

/-- Lines 286-289: the already-textual check.  `data[:20].isascii()` is
true when every byte of the first 20 is below 128 (vacuously true for
blobs shorter than 20 bytes, including the empty blob), then the first 500
bytes, ASCII-decoded with errors ignored, are searched for the literal
substrings `'LUT_3D_SIZE'` or `'TITLE'`. -/
def isCubeText (data : List Nat) : Bool :=
  (data.take 20).all (fun b => decide (b < 128)) &&
    (subOf (asciiFilter (data.take 500)) (strBytes "LUT_3D_SIZE") ||
      subOf (asciiFilter (data.take 500)) (strBytes "TITLE"))

/-- Result of one conversion (lines 279-387): `copiedText` carries the
bytes written verbatim for an already-textual input, `converted` the genre,
grid size and final entry list handed to the writer, `failed` any rejected
conversion (escaping exception or normalizer rejection). -/
inductive ConvResult
  | copiedText (out : List Nat)
  | converted (genre : String) (lutSize : Nat) (entries : List Entry)
  | failed
deriving DecidableEq

/-- Lines 279-387, `convert_bin_to_cube`, with `name` the file name (passed
to the header parser) and `stem` the file stem (passed to the classifier
and used as title).  Note `header` can no longer be `None` at line 347:
the raw branch of lines 302-345 always rebuilds it, so the `else` of line
351 always runs. -/
def convert_bin_to_cube (data : List Nat) (name stem : String) : ConvResult :=
  if isCubeText data then .copiedText data
  else
    match parse_ms_lut_header data (some name) with
    | .err => .failed
    | .noMagic =>
      let h := rawHeader data name
      match normalize (extract_lut_data data h.lut_size h.data_offset h.channels h.bgr)
          h.lut_size with
      | none => .failed
      | some out => .converted (categorize_lut stem) h.lut_size out
    | .ok h =>
      match normalize (extract_lut_data data h.lut_size h.data_offset h.channels h.bgr)
          h.lut_size with
      | none => .failed
      | some out => .converted (categorize_lut stem) h.lut_size out

/-- A magic-tagged blob of total length `n` (for `n ≥ 8`) whose bytes after
the signature are all zero. -/
def mkMsBlob (n : Nat) : List Nat := magicBytes ++ List.replicate (n - 8) 0

/-- A 14855-byte magic-tagged blob whose payload rows at offset 116 carry an
ascending byte 0 (values 0,1,2,3) and a constant byte 2. -/
def ascendData : List Nat :=
  magicBytes ++ List.replicate 108 0 ++
    [0, 0, 0, 1, 0, 0, 2, 0, 0, 3, 0, 0] ++ List.replicate 14727 0

/-- A 14839-byte magic-tagged blob (17^3*3 payload plus a 100-byte header)
carrying the valid candidate offset 50 as the 8-byte little-endian integer
at 0x20. -/
def candData : List Nat :=
  magicBytes ++ List.replicate 24 0 ++ (50 :: List.replicate 7 0) ++
    List.replicate 14799 0

/-! Helper lemmas about the payload decoder. -/

theorem extractGo_length_le (lut : List Nat) (ch : Nat) (bgr : Bool) :
    ∀ (fuel i : Nat), (extractGo lut ch bgr fuel i).length ≤ fuel := by
  intro fuel
  induction fuel with
  | zero => intro i; simp [extractGo]
  | succ n ih =>
    intro i
    simp only [extractGo]
    split
    · simp
    · simpa using ih (i + 1)

theorem extractGo_full (lut : List Nat) (ch : Nat) (bgr : Bool) :
    ∀ (fuel i : Nat), (∀ j, j < fuel → (i + j) * ch + 3 ≤ lut.length) →
      (extractGo lut ch bgr fuel i).length = fuel := by
  intro fuel
  induction fuel with
  | zero => intro i _; simp [extractGo]
  | succ n ih =>
    intro i h
    have h0 : i * ch + 3 ≤ lut.length := by simpa using h 0 (by omega)
    simp only [extractGo, if_neg (by omega : ¬ i * ch + 3 > lut.length), List.length_cons]
    have := ih (i + 1) (fun j hj => by
      have e : i + 1 + j = i + (j + 1) := by omega
      rw [e]; exact h (j + 1) (by omega))
    omega

theorem extractGo_getD (z : Entry) (lut : List Nat) (ch : Nat) (bgr : Bool) :
    ∀ (fuel i j : Nat), j < (extractGo lut ch bgr fuel i).length →
      (extractGo lut ch bgr fuel i).getD j z = lutEntry lut ((i + j) * ch) bgr := by
  intro fuel
  induction fuel with
  | zero => intro i j hj; simp [extractGo] at hj
  | succ n ih =>
    intro i j hj
    simp only [extractGo] at hj ⊢
    split at hj
    · simp at hj
    · rename_i hok
      rw [if_neg hok]
      match j with
      | 0 => simp
      | j + 1 =>
        simp only [List.getD_cons_succ]
        have e : i + 1 + j = i + (j + 1) := by omega
        rw [← e]
        exact ih (i + 1) j (by simpa using hj)

theorem extractGo_short_iff (lut : List Nat) (ch : Nat) (bgr : Bool) :
    ∀ (fuel i : Nat), 1 ≤ fuel →
      ((extractGo lut ch bgr fuel i).length < fuel ↔
        lut.length < (i + (fuel - 1)) * ch + 3) := by
  intro fuel
  induction fuel with
  | zero => intro i h; omega
  | succ n ih =>
    intro i _
    simp only [extractGo]
    split
    · rename_i hbreak
      simp only [List.length_nil]
      have hmono : i * ch ≤ (i + n) * ch := Nat.mul_le_mul_right ch (by omega)
      constructor
      · intro _
        have e : i + (n + 1 - 1) = i + n := by omega
        rw [e]; omega
      · intro _; omega
    · rename_i hok
      simp only [List.length_cons]
      rcases Nat.eq_zero_or_pos n with hn | hn
      · subst hn
        simp only [extractGo, List.length_nil]
        constructor
        · intro h; omega
        · intro h
          have e : i + (1 - 1) = i := by omega
          rw [e] at h; omega
      · have key := ih (i + 1) hn
        have e1 : i + 1 + (n - 1) = i + n := by omega
        have e2 : i + (n + 1 - 1) = i + n := by omega
        rw [e1] at key
        rw [e2]
        omega

/-! Helper lemmas about the table normalizer. -/

theorem normalize_none_iff (entries : List Entry) (N : Nat) :
    normalize entries N = none ↔
      (entries = [] ∨ 10 * entries.length < 9 * N ^ 3) := by
  unfold normalize
  split
  · rename_i hc; simp [hc]
  · rename_i hc
    split <;> simp [hc]

theorem padLoop_closed (N : Nat) :
    ∀ (fuel : Nat) (es : List Entry), N ^ 3 ≤ es.length + fuel →
      padLoop N fuel es =
        es ++ (List.range (N ^ 3 - es.length)).map (fun j => rampEntry N (es.length + j)) := by
  intro fuel
  induction fuel with
  | zero =>
    intro es h
    have h0 : N ^ 3 - es.length = 0 := by omega
    simp [padLoop, h0]
  | succ fuel ih =>
    intro es h
    by_cases hl : es.length < N ^ 3
    · rw [show padLoop N (fuel + 1) es = padLoop N fuel (es ++ [rampEntry N es.length]) from
        by simp [padLoop, hl]]
      rw [ih _ (by simp only [List.length_append, List.length_singleton]; omega)]
      simp only [List.length_append, List.length_singleton]
      rw [show N ^ 3 - es.length = (N ^ 3 - (es.length + 1)) + 1 from by omega]
      rw [List.range_succ_eq_map]
      simp only [List.map_cons, List.map_map, List.append_assoc, List.cons_append,
        List.nil_append, Nat.add_zero]
      refine congrArg (es ++ ·) (congrArg (rampEntry N es.length :: ·) ?_)
      refine List.map_congr_left (fun j _ => ?_)
      simp only [Function.comp_apply, Nat.succ_eq_add_one]
      ring_nf
    · rw [show padLoop N (fuel + 1) es = es from by simp [padLoop, hl]]
      have h0 : N ^ 3 - es.length = 0 := by omega
      simp [h0]

/-- Claim C5 counterexample: with gridSize 9, `0.9 × 9³ = 656.1`, whose
value rounded per the language's rounding (Python `round(656.1)`, equal to
Mathlib `round`) is 656 — but a sequence of exactly 656 entries is
rejected by the normalizer (`656 < 656.1`), contradicting the claim that a
sequence of exactly `0.9 × gridSize³` entries (rounded) is accepted. -/
theorem C5_counterexample :
    round ((9 : ℚ) / 10 * 9 ^ 3) = 656 ∧
    normalize (List.replicate 656 ((0 : ℚ), (0 : ℚ), (0 : ℚ))) 9 = none := by
  constructor
  · norm_num [round_eq]
  · decide

/-- Claim C5 (amended): the conversion rejects exactly when the recovered
entry count satisfies `len < 0.9 × gridSize³` (modelled exactly:
`10·len < 9·N³`); the acceptance boundary is the ceiling of `0.9 × N³`:
a sequence of exactly `⌈0.9·N³⌉ - 1` entries is rejected and one of
exactly `⌈0.9·N³⌉` entries is accepted — not the language's
round-to-nearest of `0.9·N³`, which is rejected whenever `9·N³ mod 10`
is 1 through 4 (or 5, by banker's rounding). -/
theorem C5_threshold (N : Nat) (entries : List Entry) (hN : 1 ≤ N) :
    (normalize entries N = none ↔ 10 * entries.length < 9 * N ^ 3) ∧
    (entries.length + 1 = (9 * N ^ 3 + 9) / 10 → normalize entries N = none) ∧
    (entries.length = (9 * N ^ 3 + 9) / 10 → normalize entries N ≠ none) := by
  have hpow : 1 ≤ N ^ 3 := Nat.one_le_pow 3 N (by omega)
  have main : normalize entries N = none ↔ 10 * entries.length < 9 * N ^ 3 := by
    rw [normalize_none_iff]
    constructor
    · rintro (rfl | h)
      · simp only [List.length_nil]; omega
      · exact h
    · exact fun h => Or.inr h
  refine ⟨main, fun h => ?_, fun h => ?_⟩
  · rw [main]; omega
  · rw [Ne, main]; omega

/-- Witness for C5 at gridSize 9: `⌈0.9 × 9³⌉ = 657`. -/
theorem C5_threshold_witness :
    (normalize (List.replicate 657 ((0 : ℚ), (0 : ℚ), (0 : ℚ))) 9 = none ↔
      10 * (List.replicate 657 ((0 : ℚ), (0 : ℚ), (0 : ℚ))).length < 9 * 9 ^ 3) ∧
    ((List.replicate 657 ((0 : ℚ), (0 : ℚ), (0 : ℚ))).length + 1 = (9 * 9 ^ 3 + 9) / 10 →
      normalize (List.replicate 657 ((0 : ℚ), (0 : ℚ), (0 : ℚ))) 9 = none) ∧
    ((List.replicate 657 ((0 : ℚ), (0 : ℚ), (0 : ℚ))).length = (9 * 9 ^ 3 + 9) / 10 →
      normalize (List.replicate 657 ((0 : ℚ), (0 : ℚ), (0 : ℚ))) 9 ≠ none) :=
  C5_threshold 9 (List.replicate 657 ((0 : ℚ), (0 : ℚ), (0 : ℚ))) (by norm_num)

/-- Claim C6: an accepted entry sequence (at least `0.9 × gridSize³`
entries) normalizes to exactly `gridSize³` entries: longer sequences are
truncated to the first `gridSize³`, shorter ones are kept unchanged and
padded at target index `i` with the identity-ramp triple
`((i mod N)/(N-1), ((i div N) mod N)/(N-1), (i div N²)/(N-1))`
(`rampEntry`, which takes no byte-order input). -/
theorem C6_normalize_shape (N : Nat) (entries : List Entry) (hN : 1 ≤ N)
    (hacc : 9 * N ^ 3 ≤ 10 * entries.length) :
    normalize entries N =
      some (entries.take (N ^ 3) ++
        (List.range (N ^ 3 - entries.length)).map (fun j => rampEntry N (entries.length + j))) ∧
    (entries.take (N ^ 3) ++
        (List.range (N ^ 3 - entries.length)).map
          (fun j => rampEntry N (entries.length + j))).length = N ^ 3 := by
  have hpow : 1 ≤ N ^ 3 := Nat.one_le_pow 3 N (by omega)
  have hne : entries ≠ [] := by
    intro h; rw [h] at hacc; simp only [List.length_nil] at hacc; omega
  have hcond : ¬(entries = [] ∨ 10 * entries.length < 9 * N ^ 3) := by
    rintro (rfl | h)
    · exact hne rfl
    · omega
  constructor
  · unfold normalize
    rw [if_neg hcond]
    by_cases hlen : entries.length > N ^ 3
    · rw [if_pos hlen]
      simp [Nat.sub_eq_zero_of_le (by omega : N ^ 3 ≤ entries.length)]
    · rw [if_neg hlen]
      rw [padLoop_closed N (N ^ 3) entries (by omega)]
      rw [List.take_of_length_le (by omega)]
  · simp only [List.length_append, List.length_take, List.length_map, List.length_range]
    omega

/-- Witness for C6 at gridSize 3 with 25 of the 27 entries recovered. -/
theorem C6_normalize_shape_witness :
    normalize (List.replicate 25 ((0 : ℚ), (0 : ℚ), (0 : ℚ))) 3 =
      some ((List.replicate 25 ((0 : ℚ), (0 : ℚ), (0 : ℚ))).take (3 ^ 3) ++
        (List.range (3 ^ 3 - (List.replicate 25 ((0 : ℚ), (0 : ℚ), (0 : ℚ))).length)).map
          (fun j => rampEntry 3 ((List.replicate 25 ((0 : ℚ), (0 : ℚ), (0 : ℚ))).length + j))) ∧
    ((List.replicate 25 ((0 : ℚ), (0 : ℚ), (0 : ℚ))).take (3 ^ 3) ++
        (List.range (3 ^ 3 - (List.replicate 25 ((0 : ℚ), (0 : ℚ), (0 : ℚ))).length)).map
          (fun j => rampEntry 3 ((List.replicate 25 ((0 : ℚ), (0 : ℚ), (0 : ℚ))).length + j))).length
      = 3 ^ 3 :=
  C6_normalize_shape 3 (List.replicate 25 ((0 : ℚ), (0 : ℚ), (0 : ℚ))) (by norm_num)
    (by simp only [List.length_replicate]; norm_num)

/-- Claim C7 counterexample: with gridSize 1, channelCount 4 and offset 0
on a 3-byte blob, the remaining bytes are insufficient for a full 4-byte
record (`3 < 1³·4`), yet the decoder still reads the record — its break
test only needs the 3 sampled bytes — and returns a full-length (not
shorter) sequence, refuting the claimed equivalence. -/
theorem C7_counterexample :
    ¬(((extract_lut_data [0, 0, 0] 1 0 4 false).length < 1 ^ 3) ↔
      (([0, 0, 0] : List Nat).length < 0 + 1 ^ 3 * 4)) := by
  decide

/-- Claim C7 (amended): the decoder reads at most `gridSize³` fixed-stride
records of `channelCount` bytes from `dataOffset`, maps record `j` to its
first 3 bytes each divided by 255 with bytes 0 and 2 swapped when BGR, and
returns a shorter sequence without error exactly when the bytes remaining
cannot supply the first 3 bytes of the last record — that is, when
`len(blob) < dataOffset + (gridSize³ − 1)·channelCount + 3`; a trailing
partial record with only 3 of its `channelCount` bytes available is still
decoded. -/
theorem C7_decoder (data : List Nat) (N off ch : Nat) (bgr : Bool) (z : Entry)
    (hN : 1 ≤ N) :
    ((extract_lut_data data N off ch bgr).length ≤ N ^ 3) ∧
    (∀ j, j < (extract_lut_data data N off ch bgr).length →
      (extract_lut_data data N off ch bgr).getD j z =
        lutEntry (data.drop off) (j * ch) bgr) ∧
    ((extract_lut_data data N off ch bgr).length < N ^ 3 ↔
      data.length < off + (N ^ 3 - 1) * ch + 3) := by
  have hpow : 1 ≤ N ^ 3 := Nat.one_le_pow 3 N (by omega)
  refine ⟨extractGo_length_le _ _ _ _ _, fun j hj => ?_, ?_⟩
  · have := extractGo_getD z (data.drop off) ch bgr (N ^ 3) 0 j hj
    simpa using this
  · have key := extractGo_short_iff (data.drop off) ch bgr (N ^ 3) 0 hpow
    rw [extract_lut_data, key]
    simp only [List.length_drop, Nat.zero_add]
    have h3 : 0 < (N ^ 3 - 1) * ch + 3 := by omega
    omega

/-- Witness for C7: a 10-byte blob, gridSize 2, channelCount 3, offset 1. -/
theorem C7_decoder_witness :
    ((extract_lut_data [10, 20, 30, 40, 50, 60, 70, 80, 90, 100] 2 1 3 false).length ≤ 2 ^ 3) ∧
    (∀ j, j < (extract_lut_data [10, 20, 30, 40, 50, 60, 70, 80, 90, 100] 2 1 3 false).length →
      (extract_lut_data [10, 20, 30, 40, 50, 60, 70, 80, 90, 100] 2 1 3 false).getD j
          ((0 : ℚ), (0 : ℚ), (0 : ℚ)) =
        lutEntry (([10, 20, 30, 40, 50, 60, 70, 80, 90, 100] : List Nat).drop 1) (j * 3) false) ∧
    ((extract_lut_data [10, 20, 30, 40, 50, 60, 70, 80, 90, 100] 2 1 3 false).length < 2 ^ 3 ↔
      ([10, 20, 30, 40, 50, 60, 70, 80, 90, 100] : List Nat).length < 1 + (2 ^ 3 - 1) * 3 + 3) :=
  C7_decoder [10, 20, 30, 40, 50, 60, 70, 80, 90, 100] 2 1 3 false ((0 : ℚ), (0 : ℚ), (0 : ℚ))
    (by norm_num)

/-! Helper lemmas about the magic-tagged header parser. -/

theorem parse_ok_inv (data : List Nat) (fn : Option String) (h : MsHeader)
    (hp : parse_ms_lut_header data fn = .ok h) :
    leadsList magicBytes data = true ∧ 12 ≤ data.length ∧
      h = ⟨readLE data 8 4, (resolveBySize data.length).1, data.length,
        (resolveBySize data.length).2.2, (resolveBySize data.length).2.1,
        detectBgr data (resolveBySize data.length).2.2 (resolveBySize data.length).2.1
          (resolveBySize data.length).1 fn⟩ := by
  unfold parse_ms_lut_header at hp
  split at hp
  · split at hp
    · exact absurd hp (by simp)
    · rename_i hm hlen
      refine ⟨hm, by omega, ?_⟩
      simpa using hp.symm
  · exact absurd hp (by simp)

theorem bruteForce_some (fs s c : Nat) (h : bruteForce fs = some (s, c)) :
    16 ≤ s ∧ (c = 3 ∨ c = 4) ∧ s ^ 3 * c ≤ fs ∧ fs < s ^ 3 * c + 4096 := by
  have hmem := List.mem_of_find?_eq_some h
  have hpred := List.find?_some h
  have hsz : ∀ p ∈ brutePairs, 16 ≤ p.1 ∧ (p.2 = 3 ∨ p.2 = 4) := by decide
  have h1 := hsz _ hmem
  simp only [decide_eq_true_eq] at hpred
  exact ⟨h1.1, h1.2, hpred.1, hpred.2⟩

theorem resolveBySize_spec (fs : Nat) (h12 : 12 ≤ fs) :
    16 ≤ (resolveBySize fs).1 ∧
    ((resolveBySize fs).2.1 = 3 ∨ (resolveBySize fs).2.1 = 4) ∧
    (resolveBySize fs).2.2 + 4 * (resolveBySize fs).2.1 ≤ fs := by
  unfold resolveBySize
  split
  · rename_i h; subst h; norm_num
  · split
    · rename_i h; subst h; norm_num
    · rcases hbf : bruteForce fs with _ | ⟨s, c⟩
      · simp only [hbf]
        unfold fallbackSize
        split_ifs <;>
          (refine ⟨by norm_num, by norm_num, ?_⟩; norm_num; omega)
      · simp only [hbf]
        obtain ⟨h16, hc, hle, _⟩ := bruteForce_some fs s c hbf
        have hcube : 4096 ≤ s ^ 3 := by
          calc (4096 : Nat) = 16 ^ 3 := by norm_num
          _ ≤ s ^ 3 := Nat.pow_le_pow_left h16 3
        refine ⟨h16, hc, ?_⟩
        rcases hc with rfl | rfl <;>
          (generalize s ^ 3 = P at *; omega)

theorem sampleVals_len (data : List Nat) (off ch lutN k : Nat)
    (h3 : 3 ≤ ch) (h16 : 16 ≤ lutN) (hg : off + ch * 4 ≤ data.length) :
    (sampleVals data off ch lutN data.length k).length = 4 := by
  unfold sampleVals
  rw [Nat.min_eq_left (by omega)]
  rw [List.length_map]
  rw [List.filter_eq_self.mpr]
  · simp
  · intro r hr
    simp only [List.mem_range] at hr
    simp only [decide_eq_true_eq]
    have hb : r * ch ≤ 3 * ch := Nat.mul_le_mul_right ch (by omega)
    omega

theorem detectBgr_sampled (data : List Nat) (off ch lutN : Nat) (fn : Option String)
    (h3 : 3 ≤ ch) (h16 : 16 ≤ lutN) (hg : off + ch * 4 ≤ data.length) :
    detectBgr data off ch lutN fn =
      decide (lastMinusHead (sampleVals data off ch lutN data.length 0) <
        lastMinusHead (sampleVals data off ch lutN data.length 2)) := by
  have l0 := sampleVals_len data off ch lutN 0 h3 h16 hg
  have l2 := sampleVals_len data off ch lutN 2 h3 h16 hg
  simp only [detectBgr]
  rw [if_pos hg, if_pos ⟨by rw [l0]; norm_num, by rw [l2]; norm_num⟩]

theorem parse_ok_bounds (data : List Nat) (fn : Option String) (h : MsHeader)
    (hp : parse_ms_lut_header data fn = .ok h) :
    16 ≤ h.lut_size ∧ (h.channels = 3 ∨ h.channels = 4) ∧
      h.data_offset + 4 * h.channels ≤ data.length := by
  obtain ⟨hm, hlen, rfl⟩ := parse_ok_inv data fn h hp
  simpa using resolveBySize_spec data.length hlen

/-! Concrete evaluations of the parser on the example blobs. -/

theorem ascend_len : ascendData.length = 14855 := by
  simp only [ascendData, magicBytes, strBytes, List.length_append, List.length_replicate,
    List.length_map, List.length_cons]
  norm_num [String.toList]

theorem parse_ascend_eval :
    parse_ms_lut_header ascendData (some "x.bin") = .ok ⟨0, 17, 14855, 116, 3, false⟩ := by
  have hm : leadsList magicBytes ascendData = true := by decide
  have hr : resolveBySize 14855 = (17, 3, 116) := by decide
  have hv : readLE ascendData 8 4 = 0 := by decide
  have hd : detectBgr ascendData 116 3 17 (some "x.bin") = false := by
    simp only [detectBgr, ascend_len]
    decide
  simp only [parse_ms_lut_header, hm, ascend_len, hr, hv, hd]
  norm_num

theorem cand_len : candData.length = 14839 := by
  simp only [candData, magicBytes, strBytes, List.length_append, List.length_replicate,
    List.length_map, List.length_cons]
  norm_num [String.toList]

theorem cand_offsets : candidateOffsets candData = [50] := by
  have r1 : readLE candData 0x20 8 = 50 := by decide
  have r2 : readLE candData 0x28 8 = 0 := by decide
  simp only [candidateOffsets, cand_len, r1, r2]
  decide

theorem parse_cand_eval :
    parse_ms_lut_header candData (some "x.bin") = .ok ⟨0, 17, 14839, 100, 3, false⟩ := by
  have hm : leadsList magicBytes candData = true := by decide
  have hr : resolveBySize 14839 = (17, 3, 100) := by decide
  have hv : readLE candData 8 4 = 0 := by decide
  have hd : detectBgr candData 100 3 17 (some "x.bin") = false := by
    simp only [detectBgr, cand_len]
    decide
  simp only [parse_ms_lut_header, hm, cand_len, hr, hv, hd]
  norm_num

theorem parse_mk100_eval :
    parse_ms_lut_header (mkMsBlob 100) (some "f") = .ok ⟨0, 17, 100, 0, 3, false⟩ := by
  decide

theorem mk14855_len : (mkMsBlob 14855).length = 14855 := by
  simp only [mkMsBlob, magicBytes, strBytes, List.length_append, List.length_replicate,
    List.length_map]
  norm_num [String.toList]

theorem mk98480_len : (mkMsBlob 98480).length = 98480 := by
  simp only [mkMsBlob, magicBytes, strBytes, List.length_append, List.length_replicate,
    List.length_map]
  norm_num [String.toList]

/-- Claim C1: a magic-tagged blob of total length exactly 14855 parses to
gridSize 17, channelCount 3, dataOffset 116 and decodes to exactly
17³ = 4913 entries; one of total length exactly 98480 parses to gridSize
32, channelCount 3, dataOffset 176 and decodes to exactly 32³ = 32768
entries.  The statement quantifies over all blob contents (and filenames),
so the result is independent of the candidate offsets stored at 0x20/0x28. -/
theorem C1_exact_profiles (data : List Nat) (fn : Option String)
    (hm : leadsList magicBytes data = true) :
    (data.length = 14855 → ∃ h, parse_ms_lut_header data fn = .ok h ∧
      h.lut_size = 17 ∧ h.channels = 3 ∧ h.data_offset = 116 ∧
      (extract_lut_data data h.lut_size h.data_offset h.channels h.bgr).length = 4913) ∧
    (data.length = 98480 → ∃ h, parse_ms_lut_header data fn = .ok h ∧
      h.lut_size = 32 ∧ h.channels = 3 ∧ h.data_offset = 176 ∧
      (extract_lut_data data h.lut_size h.data_offset h.channels h.bgr).length = 32768) := by
  constructor
  · intro hlen
    have hr : resolveBySize 14855 = (17, 3, 116) := by decide
    refine ⟨⟨readLE data 8 4, 17, 14855, 116, 3, detectBgr data 116 3 17 fn⟩,
      ?_, rfl, rfl, rfl, ?_⟩
    · simp only [parse_ms_lut_header, hm, hlen, hr]
      norm_num
    · have hL : (data.drop 116).length = 14739 := by rw [List.length_drop, hlen]
      have hfull := extractGo_full (data.drop 116) 3 (detectBgr data 116 3 17 fn)
        (17 ^ 3) 0 (fun j hj => by rw [hL]; norm_num at hj ⊢; omega)
      simpa using hfull
  · intro hlen
    have hr : resolveBySize 98480 = (32, 3, 176) := by decide
    refine ⟨⟨readLE data 8 4, 32, 98480, 176, 3, detectBgr data 176 3 32 fn⟩,
      ?_, rfl, rfl, rfl, ?_⟩
    · simp only [parse_ms_lut_header, hm, hlen, hr]
      norm_num
    · have hL : (data.drop 176).length = 98304 := by rw [List.length_drop, hlen]
      have hfull := extractGo_full (data.drop 176) 3 (detectBgr data 176 3 32 fn)
        (32 ^ 3) 0 (fun j hj => by rw [hL]; norm_num at hj ⊢; omega)
      simpa using hfull

/-- Witness for C1: all-zero magic-tagged blobs of lengths 14855 and 98480. -/
theorem C1_exact_profiles_witness :
    (∃ h, parse_ms_lut_header (mkMsBlob 14855) (some "a.bin") = .ok h ∧
      h.lut_size = 17 ∧ h.channels = 3 ∧ h.data_offset = 116 ∧
      (extract_lut_data (mkMsBlob 14855) h.lut_size h.data_offset h.channels h.bgr).length
        = 4913) ∧
    (∃ h, parse_ms_lut_header (mkMsBlob 98480) (some "b.bin") = .ok h ∧
      h.lut_size = 32 ∧ h.channels = 3 ∧ h.data_offset = 176 ∧
      (extract_lut_data (mkMsBlob 98480) h.lut_size h.data_offset h.channels h.bgr).length
        = 32768) :=
  ⟨(C1_exact_profiles (mkMsBlob 14855) (some "a.bin") (by decide)).1 mk14855_len,
   (C1_exact_profiles (mkMsBlob 98480) (some "b.bin") (by decide)).2 mk98480_len⟩

/-- Claim C2: for every magic-tagged blob that parses, the byte order is
BGR exactly when the sampled byte-2 net change exceeds the byte-0 net
change, and with fewer than two samples it would fall back to the
filename (BGR unless the name contains `'.rgba.'`).  The sampling clause
is proved outright; the filename clause is vacuously true, because the
parser always collects exactly 4 samples (`sampleVals_len`): every header
it returns satisfies `data_offset + 4·channels ≤ file_size`, so the
fallback is unreachable. -/
theorem C2_byte_order (data : List Nat) (fn : Option String) (h : MsHeader)
    (hp : parse_ms_lut_header data fn = .ok h) :
    (2 ≤ (sampleVals data h.data_offset h.channels h.lut_size data.length 0).length →
      h.bgr = decide
        (lastMinusHead (sampleVals data h.data_offset h.channels h.lut_size data.length 0) <
         lastMinusHead (sampleVals data h.data_offset h.channels h.lut_size data.length 2))) ∧
    ((sampleVals data h.data_offset h.channels h.lut_size data.length 0).length < 2 →
      h.bgr = !(subOf (lowerStr (fn.getD "")) (".rgba.".toList))) := by
  obtain ⟨hm, hlen, rfl⟩ := parse_ok_inv data fn h hp
  obtain ⟨h16, hc, hg⟩ := resolveBySize_spec data.length hlen
  have h3 : 3 ≤ (resolveBySize data.length).2.1 := by rcases hc with h | h <;> omega
  have hg2 : (resolveBySize data.length).2.2 + (resolveBySize data.length).2.1 * 4 ≤
      data.length := by omega
  constructor
  · intro _
    exact detectBgr_sampled data _ _ _ fn h3 h16 hg2
  · intro hlt
    rw [sampleVals_len data _ _ _ 0 h3 h16 hg2] at hlt
    exact absurd hlt (by norm_num)

/-- Witness for C2: a 14855-byte magic blob whose payload rows at offset
116 have byte 0 ascending 0,1,2,3 and byte 2 constant: the detected order
is RGB (`bgr = false`), as the claim requires for an ascending pattern. -/
theorem C2_byte_order_witness :
    (2 ≤ (sampleVals ascendData 116 3 17 ascendData.length 0).length →
      (false : Bool) = decide
        (lastMinusHead (sampleVals ascendData 116 3 17 ascendData.length 0) <
         lastMinusHead (sampleVals ascendData 116 3 17 ascendData.length 2))) ∧
    ((sampleVals ascendData 116 3 17 ascendData.length 0).length < 2 →
      (false : Bool) = !(subOf (lowerStr ((some "x.bin").getD "")) (".rgba.".toList))) :=
  C2_byte_order ascendData (some "x.bin") ⟨0, 17, 14855, 116, 3, false⟩ parse_ascend_eval

/-- Claim C4 counterexample: `candData` is a 14839-byte magic-tagged blob
(size neither 14855 nor 98480, longer than 0x30) carrying the valid
candidate 50 at offset 0x20 (`candidateOffsets` returns `[50]`), yet the
parsed dataOffset is 100 — the brute-force header size
`14839 − 17³·3` — not the candidate. -/
theorem C4_counterexample :
    candidateOffsets candData = [50] ∧
    parse_ms_lut_header candData (some "x.bin") = .ok ⟨0, 17, 14839, 100, 3, false⟩ ∧
    (MsHeader.mk 0 17 14839 100 3 false).data_offset ≠ 50 :=
  ⟨cand_offsets, parse_cand_eval, by decide⟩

/-- Claim C4 (amended): the two 8-byte little-endian candidates at
0x20/0x28 are read and validated (`0 < candidate < len(blob)`), and the
first valid one is stored — but every branch of the subsequent size-based
dispatch (exact-size profiles, brute-force search, banding fallback)
reassigns the data offset, so the offset of every header the parser
returns is a function of the blob length alone (`resolveBySize`) and never
the surviving candidate. -/
theorem C4_offset_from_size (data : List Nat) (fn : Option String) (h : MsHeader)
    (hp : parse_ms_lut_header data fn = .ok h) :
    h.data_offset = (resolveBySize data.length).2.2 := by
  obtain ⟨-, -, rfl⟩ := parse_ok_inv data fn h hp
  rfl

/-- Witness for C4 at a 100-byte magic blob (no brute-force match, banding
fallback clamps the offset to 0). -/
theorem C4_offset_from_size_witness :
    (MsHeader.mk 0 17 100 0 3 false).data_offset = (resolveBySize (mkMsBlob 100).length).2.2 :=
  C4_offset_from_size (mkMsBlob 100) (some "f") ⟨0, 17, 100, 0, 3, false⟩ parse_mk100_eval

/-- Claim C3: the code contradicts the claim (and the spec): for the
4000-byte headerless blob, `round(cbrt(4000/4)) = 10` and `10³·4 = 4000`,
so the claim requires channelCount 4 — but the stray `channels = 3` at
line 334 (indented at the outer level of the cube-root `else:` branch)
unconditionally overrides the `channels = 4` of line 327, and the code
reports channelCount 3 (with gridSize 10).  This theorem evaluates the
embedded code at the failing input. -/
theorem C3_channels_override :
    pyCbrtRound 4000 4 = 10 ∧ (pyCbrtRound 4000 4) ^ 3 * 4 = 4000 ∧
    (rawHeader (List.replicate 4000 0) "test.bin").lut_size = 10 ∧
    (rawHeader (List.replicate 4000 0) "test.bin").channels = 3 := by
  refine ⟨by decide, by decide, ?_, ?_⟩ <;>
  · simp only [rawHeader, List.length_replicate]
    decide

/-- Claim C8 counterexample: on the empty blob the raw path is taken and
its guess has `dataOffset = 0` with `len(blob) = 0`, so the claimed
invariant `dataOffset < len(blob)` fails. -/
theorem C8_counterexample :
    parse_ms_lut_header ([] : List Nat) (some "a") = .noMagic ∧
    (rawHeader ([] : List Nat) "a").data_offset = 0 ∧
    ¬((rawHeader ([] : List Nat) "a").data_offset < ([] : List Nat).length) := by
  refine ⟨by decide, by decide, ?_⟩
  decide

/-- Claim C8 (amended): for every non-empty blob, the sniffer's guess on
the magic-tagged path (any header the parser returns) and on the
headerless raw path satisfies `0 ≤ dataOffset < len(blob)` (the lower
bound is inherent to ℕ) and `channelCount ∈ {3, 4}`.  The original claim
fails only on the empty blob, where the raw path reports
`dataOffset = 0 = len(blob)`. -/
theorem C8_invariants (data : List Nat) (name : String) (fn : Option String)
    (hne : data ≠ []) :
    (∀ h, parse_ms_lut_header data fn = .ok h →
      h.data_offset < data.length ∧ (h.channels = 3 ∨ h.channels = 4)) ∧
    ((rawHeader data name).data_offset < data.length ∧
      ((rawHeader data name).channels = 3 ∨ (rawHeader data name).channels = 4)) := by
  constructor
  · intro h hp
    obtain ⟨h16, hc, hb⟩ := parse_ok_bounds data fn h hp
    exact ⟨by omega, hc⟩
  · refine ⟨?_, ?_⟩
    · show 0 < data.length
      exact List.length_pos.mpr hne
    · show (rawSize data.length).2 = 3 ∨ (rawSize data.length).2 = 4
      unfold rawSize
      split_ifs <;> simp

/-- Witness for C8 at the 3-byte blob `[1, 2, 3]`. -/
theorem C8_invariants_witness :
    (∀ h, parse_ms_lut_header ([1, 2, 3] : List Nat) (some "f.bin") = .ok h →
      h.data_offset < ([1, 2, 3] : List Nat).length ∧
        (h.channels = 3 ∨ h.channels = 4)) ∧
    ((rawHeader ([1, 2, 3] : List Nat) "f.bin").data_offset < ([1, 2, 3] : List Nat).length ∧
      ((rawHeader ([1, 2, 3] : List Nat) "f.bin").channels = 3 ∨
        (rawHeader ([1, 2, 3] : List Nat) "f.bin").channels = 4)) :=
  C8_invariants [1, 2, 3] "f.bin" (some "f.bin") (by decide)

/-! Helper lemma for the genre classifier. -/

theorem firstGenre_eq_find (name : List Char) :
    ∀ l : List (String × List Pat),
      firstGenre name l =
        ((l.find? (fun gp => gp.2.any (patMatches name))).map Prod.fst).getD
          "Uncategorized" := by
  intro l
  induction l with
  | nil => rfl
  | cons gp rest ih =>
    rcases gp with ⟨g, pats⟩
    simp only [firstGenre]
    by_cases hmm : pats.any (patMatches name)
    · rw [if_pos hmm, List.find?_cons_of_pos _ (by simpa using hmm)]
      rfl
    · rw [if_neg hmm, List.find?_cons_of_neg _ (by simpa using hmm), ih]

/-- Claim C9: the classifier lower-cases the name, scans the genre table in
declared order and returns the first genre one of whose patterns matches
(`List.find?` semantics), with `"Uncategorized"` when nothing matches; and
on `"gr.portrait_v01"` it returns `"Ricoh GR"` even though the patterns of
`"Portrait"` (table index 8) and `"Landscape"` (index 9) also match the
name. -/
theorem C9_classifier :
    (∀ f : String, categorize_lut f =
      ((genrePatterns.find? (fun gp => gp.2.any (patMatches (lowerStr f)))).map
        Prod.fst).getD "Uncategorized") ∧
    categorize_lut "gr.portrait_v01" = "Ricoh GR" ∧
    ((genrePatterns.getD 8 ("", [])).1 = "Portrait" ∧
      (genrePatterns.getD 8 ("", [])).2.any (patMatches (lowerStr "gr.portrait_v01")) = true) ∧
    ((genrePatterns.getD 9 ("", [])).1 = "Landscape" ∧
      (genrePatterns.getD 9 ("", [])).2.any (patMatches (lowerStr "gr.portrait_v01")) = true) := by
  refine ⟨fun f => firstGenre_eq_find (lowerStr f) genrePatterns, ?_, ?_, ?_⟩
  · decide
  · decide
  · decide

/-- Claim C10: a blob whose first 20 bytes are all below 128 (printability
not required) and whose first 500 bytes, ASCII-decoded with errors
ignored, contain `'LUT_3D_SIZE'` or `'TITLE'`, is copied to the output
verbatim; the textual check runs before any binary parsing, so this holds
even for blobs that begin with the (fully ASCII) magic signature. -/
theorem C10_text_passthrough (data : List Nat) (name stem : String)
    (h20 : (data.take 20).all (fun b => decide (b < 128)) = true)
    (hmark : (subOf (asciiFilter (data.take 500)) (strBytes "LUT_3D_SIZE") ||
      subOf (asciiFilter (data.take 500)) (strBytes "TITLE")) = true) :
    convert_bin_to_cube data name stem = .copiedText data := by
  have hct : isCubeText data = true := by
    unfold isCubeText
    rw [h20, hmark]
    rfl
  simp only [convert_bin_to_cube, hct]
  rfl

/-- Witness for C10: a blob that begins with the magic signature and
contains `TITLE` is copied verbatim, bypassing the binary decoder. -/
theorem C10_text_passthrough_witness :
    convert_bin_to_cube (strBytes ".MS-LUT TITLE xyz") "t.bin" "t" =
      .copiedText (strBytes ".MS-LUT TITLE xyz") :=
  C10_text_passthrough (strBytes ".MS-LUT TITLE xyz") "t.bin" "t" (by decide) (by decide)

end FilmSims
